import Mathlib

/-!
# Verification of the Nexus Child Lifecycle Core

A shallow embedding of the child state machine of
`src/mayastor/src/bdev/nexus/nexus_child.rs` and of the mount probe and
volume service of `src/csi/src/findmnt.rs` and
`src/csi/src/nodeplugin_svc.rs`, together with proofs about the claims
of the specification.

Conventions of the embedding:
* Machine integers (`u64`, `usize`) become `Nat`; none of the modelled
  code relies on overflow.
* A Rust panic (a failed `unwrap`, `assert_eq!`) is modelled by an
  operation returning `none` of an `Option` result.
* The outcome of each external call (`Bdev::open_by_name`, the global
  `Config`, `bdev_destroy`, the device registry, the `findmnt`
  subprocess) is passed in explicitly as a parameter, so the modelled
  functions are pure.
-/

namespace Mayastor

/-- The `Reason` of `nexus_child.rs`: why a child is faulted. -/
inductive Reason where
  | Undefined
  | OutOfSync
  | CantOpen
deriving DecidableEq, Repr

/-- The `ChildState` of `nexus_child.rs`. -/
inductive ChildState where
  | Init
  | ConfigInvalid
  | Open
  | Closed
  | Faulted (r : Reason)
deriving DecidableEq, Repr

/-- The `ChildError` of `nexus_child.rs`.  Payload-free variants keep no data;
`ChildTooSmall` carries both sizes like the source enum. -/
inductive ChildError where
  | ChildNotOffline
  | ChildNotClosed
  | ChildFaulted
  | ChildTooSmall (child_size parent_size : Nat)
  | OpenChild
  | ClaimChild
  | ChildClosed
  | ChildInvalid
  | OpenWithoutBdev
  | HandleCreate
deriving DecidableEq, Repr

/-- The slice of a `Bdev` visible to `nexus_child.rs`: its registered
name, its size in bytes, and whether `internal.claim_module` is non-null
at the driver level. -/
structure Bdev where
  name : String
  size_in_bytes : Nat
  claimed : Bool
deriving DecidableEq, Repr

/-- A `Descriptor` obtained from `Bdev::open_by_name` is an abstract
token; we identify descriptors by a natural number so that distinct
claims are distinguishable.  The `BdevHandle` built by
`BdevHandle::try_from(desc)` wraps the same token. -/
abbrev Descriptor := Nat

/-- The fields of `NexusChild` that the modelled operations read or
write.  The I/O channel pointer `ch` plays no role in any modelled
operation and is omitted.  `err_store` keeps only the capacity the
`NexusErrStore::new` call received. -/
structure NexusChild where
  parent : String
  name : String
  bdev : Option Bdev
  desc : Option Descriptor
  state : ChildState
  bdev_handle : Option Descriptor
  err_store : Option Nat
deriving DecidableEq, Repr

/-- The `NexusChild::new`. -/
def NexusChild.new (name parent : String) (bdev : Option Bdev) : NexusChild :=
  { name := name
    bdev := bdev
    parent := parent
    desc := none
    state := ChildState.Init
    bdev_handle := none
    err_store := none }

/-- The environment of one `NexusChild::open` call: the outcome of
`Bdev::open_by_name(&bdev.name(), true)` (`none` models the error case),
and the global `Config::get().err_store_opts`. -/
structure OpenEnv where
  claimResult : Option Descriptor
  enable_err_store : Bool
  err_store_size : Nat
deriving DecidableEq, Repr

deriving instance DecidableEq for Except

/-- Result of one `open` call: the returned `Result<String, ChildError>`,
the child after the call, and whether the call reached the
`Bdev::open_by_name` claim attempt. -/
structure OpenOutcome where
  result : Except ChildError String
  child : NexusChild
  claimAttempted : Bool
deriving DecidableEq, Repr

/-- The `NexusChild::open(parent_size)`.  `none` models a panic: the source
reaches `self.bdev.as_ref().unwrap()` (and, in the `Open` arm,
`assert_eq!(self.bdev.is_some(), true)`) without returning
`OpenWithoutBdev` when no bdev is attached. -/
def NexusChild.open (c : NexusChild) (parent_size : Nat) (env : OpenEnv) :
    Option OpenOutcome :=
  match c.state with
  | ChildState.Faulted _ =>
      some { result := Except.error ChildError.ChildFaulted
             child := c
             claimAttempted := false }
  | _ =>
    match c.bdev with
    | none => none
    | some bdev =>
      let child_size := bdev.size_in_bytes
      if parent_size > child_size then
        some { result := Except.error
                 (ChildError.ChildTooSmall child_size parent_size)
               child := { c with state := ChildState.ConfigInvalid }
               claimAttempted := false }
      else
        match env.claimResult with
        | none =>
            some { result := Except.error ChildError.OpenChild
                   child := { c with state := ChildState.Faulted Reason.CantOpen }
                   claimAttempted := true }
        | some d =>
            let c₁ := { c with bdev_handle := some d, desc := some d }
            let c₂ :=
              if env.enable_err_store then
                { c₁ with err_store := some env.err_store_size }
              else c₁
            some { result := Except.ok c.name
                   child := { c₂ with state := ChildState.Open }
                   claimAttempted := true }

/-- The `NexusChild::_close`: release the driver-level claim when present
and drop the handle and the descriptor. -/
def NexusChild._close (c : NexusChild) : NexusChild :=
  let bdev :=
    match c.bdev with
    | some b => some (if b.claimed then { b with claimed := false } else b)
    | none => none
  { c with bdev := bdev, bdev_handle := none, desc := none }

/-- The `NexusChild::close`. -/
def NexusChild.close (c : NexusChild) : ChildState × NexusChild :=
  (ChildState.Closed, { c._close with state := ChildState.Closed })

/-- The `NexusChild::fault(reason)` (private helper). -/
def NexusChild.fault (c : NexusChild) (reason : Option Reason) : NexusChild :=
  { c._close with
    state := ChildState.Faulted (reason.getD Reason.Undefined) }

/-- The `NexusChild::out_of_sync`. -/
def NexusChild.out_of_sync (c : NexusChild) (oos : Bool) : NexusChild :=
  if oos then c.fault (some Reason.OutOfSync) else c

/-- The `NexusChild::offline`. -/
def NexusChild.offline (c : NexusChild) : NexusChild := (c.close).2

/-- The `NexusChild::online`. -/
def NexusChild.online (c : NexusChild) (parent_size : Nat) (env : OpenEnv) :
    Option OpenOutcome :=
  c.open parent_size env

/-- The `NexusChild::status`. -/
def NexusChild.status (c : NexusChild) : ChildState := c.state

/-- The `NexusChild::can_rw`. -/
def NexusChild.can_rw (c : NexusChild) : Bool :=
  c.status = ChildState.Open

/-- The `NexusChild::destroy`.  `none` models the
`assert_eq!(self.status(), ChildState::Closed)` panic; `destroyResult`
is the outcome of the external `bdev_destroy(&self.name)` call
(`Bool` stands in for `Result<(), NexusBdevError>`). -/
def NexusChild.destroy (c : NexusChild) (destroyResult : Bool) :
    Option (Bool × NexusChild) :=
  if c.status = ChildState.Closed then
    match c.bdev with
    | some _ => some (destroyResult, c)
    | none => some (true, c)
  else none

/-- The `NexusChild::get_dev`: both the bdev and the handle must be present
and the child must be open. -/
def NexusChild.get_dev (c : NexusChild) :
    Except ChildError (Bdev × Descriptor) :=
  if ¬ c.can_rw then Except.error ChildError.ChildClosed
  else
    match c.bdev, c.bdev_handle with
    | some b, some h => Except.ok (b, h)
    | _, _ => Except.error ChildError.ChildInvalid

/-- The inductive invariant of the child state machine: an `Open` child
holds the bdev, the descriptor and the I/O handle; a child in any other
state holds neither descriptor nor handle.  It implies the
specification's I1 (both directions), I2 and I3. -/
def childInv (c : NexusChild) : Bool :=
  match c.state with
  | ChildState.Open => c.bdev.isSome && c.desc.isSome && c.bdev_handle.isSome
  | _ => c.desc.isNone && c.bdev_handle.isNone

end Mayastor

namespace Csi

/-!
## The mount probe of `src/csi/src/findmnt.rs`

The `regex` crate pattern `(?x).*\[(?P<device>/.*)\]` (the `(?x)` mode
strips the whitespace the raw string carries) is matched against the raw
source string.  `.` does not match a newline, so a match lies entirely
inside one maximal newline-free segment of the input; the engine picks
the leftmost matching segment, then the greedy `.*` picks the last
`[` followed by `/` that still has a `]` after it, and the greedy
`(/.*)` extends the capture to the last `]` of the segment.  The
functions below implement exactly that.
-/

/-- Split a character list at newlines into its maximal newline-free
segments. -/
def splitNl : List Char → List (List Char)
  | [] => [[]]
  | c :: rest =>
    let r := splitNl rest
    if c = '\n' then [] :: r
    else
      match r with
      | s :: ss => (c :: s) :: ss
      | [] => [[c]]

/-- The part of `l` before its last `']'`, or `none` when `l` has no
`']'`. -/
def beforeLastClose (l : List Char) : Option (List Char) :=
  match l.reverse.dropWhile (fun c => c ≠ ']') with
  | [] => none
  | _ :: rest => some rest.reverse

/-- The suffix of `l` that follows the last `'['` immediately followed
by `'/'`; the returned list starts with that `'/'`. -/
def afterLastOpenSlash : List Char → Option (List Char)
  | [] => none
  | a :: rest =>
    if a = '[' ∧ rest.head? = some '/' then
      match afterLastOpenSlash rest with
      | some s => some s
      | none => some rest
    else afterLastOpenSlash rest

/-- The capture of the regex inside one newline-free segment, when the
segment matches. -/
def segDevice (seg : List Char) : Option (List Char) :=
  match beforeLastClose seg with
  | none => none
  | some p => afterLastOpenSlash p

/-- The capture of the regex in the leftmost matching segment. -/
def firstSegDevice : List (List Char) → Option (List Char)
  | [] => none
  | seg :: rest =>
    match segDevice seg with
    | some d => some d
    | none => firstSegDevice rest

/-- The `convert_findmnt_devicepath` of `findmnt.rs`: when the regex
matches, produce `"/dev" ++ device`; otherwise pass the string through
unchanged. -/
def convert_findmnt_devicepath (devpath : String) : String :=
  match firstSegDevice (splitNl devpath.data) with
  | some dev => String.mk ('/' :: 'd' :: 'e' :: 'v' :: dev)
  | none => devpath

/-- Whether the regex matches the raw source string at all. -/
def udevpathMatches (devpath : String) : Bool :=
  (firstSegDevice (splitNl devpath.data)).isSome

/-- The `serde_json::Value` shapes `findmnt.rs` distinguishes: strings,
objects, arrays, and everything else (numbers, booleans, null), for
which `as_str`, `as_object` and `as_array` all fail. -/
inductive Json where
  | str (s : String)
  | obj (fields : List (String × Json))
  | arr (elems : List Json)
  | other

/-- The `Json.arr` recogniser, mirroring `Value::is_array`. -/
def Json.isArr : Json → Bool
  | Json.arr _ => true
  | _ => false

/-- The `serde_json::Map::get`. -/
def jlookup : List (String × Json) → String → Option Json
  | [], _ => none
  | (k, v) :: rest, key => if k = key then some v else jlookup rest key

/-- The `FindmntFilter` of `findmnt.rs`. -/
structure FindmntFilter where
  key : String
  value : String
deriving DecidableEq, Repr

/-- The `PartialEq<Value> for FindmntFilter`: for the `source` key a string
value is first normalized and compared, then (on mismatch, or for any
other key) the comparison `self.value == value` treats a non-string
JSON value as unequal. -/
def filterEq (f : FindmntFilter) (v : Json) : Bool :=
  let literal : Bool :=
    match v with
    | Json.str s => f.value = s
    | _ => false
  if f.key = "source" then
    match v with
    | Json.str s =>
        (convert_findmnt_devicepath s = f.value : Bool) || literal
    | _ => literal
  else literal

/-- A `HashMap<String, String>` modelled by its bindings;
`insert` replaces the binding of an existing key. -/
def hmInsert (m : List (String × String)) (k v : String) :
    List (String × String) :=
  if m.any (fun p => p.1 = k) then
    m.map (fun p => if p.1 = k then (k, v) else p)
  else m ++ [(k, v)]

/-- Lookup in the modelled hash map. -/
def hmGet : List (String × String) → String → Option String
  | [], _ => none
  | (k, v) :: rest, key => if k = key then some v else hmGet rest key

/-- One step of the `jsonmap_to_hashmap` loop of `findmnt.rs`: a
string-valued field is inserted (the `source` field normalized first), a
non-string value is dropped. -/
def jmStep (h : List (String × String)) (kv : String × Json) :
    List (String × String) :=
  match kv.2 with
  | Json.str s =>
      hmInsert h kv.1
        (if kv.1 = "source" then convert_findmnt_devicepath s else s)
  | _ => h

/-- The `jsonmap_to_hashmap` of `findmnt.rs`: keep the string-valued fields,
normalizing the `source` field; non-string values are dropped. -/
def jsonmap_to_hashmap (m : List (String × Json)) :
    List (String × String) :=
  m.foldl jmStep []

mutual

/-- The `filter_findmnt` of `findmnt.rs`: walk the JSON tree, collect every
object whose `filter.key` field equal-compares to the filter, and
recurse into arrays and into array-valued fields, in document order. -/
def filter_findmnt (j : Json) (f : FindmntFilter) :
    List (List (String × String)) :=
  match j with
  | Json.arr es => filterElems es f
  | Json.obj m =>
      (match jlookup m f.key with
       | some v => if filterEq f v then [jsonmap_to_hashmap m] else []
       | none => []) ++ filterFields m f
  | _ => []

/-- The recursion of `filter_findmnt` over the elements of an array. -/
def filterElems (es : List Json) (f : FindmntFilter) :
    List (List (String × String)) :=
  match es with
  | [] => []
  | e :: rest => filter_findmnt e f ++ filterElems rest f

/-- The recursion of `filter_findmnt` over the array-valued fields of an
object. -/
def filterFields (m : List (String × Json)) (f : FindmntFilter) :
    List (List (String × String)) :=
  match m with
  | [] => []
  | (_, v) :: rest =>
      (if v.isArr then filter_findmnt v f else []) ++ filterFields rest f

end

/-- The `DeviceError` of the csi crate: only the message is observable
here. -/
structure DeviceError where
  message : String
deriving DecidableEq, Repr

/-- The `findmnt` of `findmnt.rs`, with the subprocess interaction made
explicit: `output` is `.ok json` when the enumerator exited zero with
that (already de-serialised) JSON on stdout, `.error stderr`
otherwise. -/
def findmnt (output : Except String Json) (params : FindmntFilter) :
    Except DeviceError (List (List (String × String))) :=
  match output with
  | Except.ok json => Except.ok (filter_findmnt json params)
  | Except.error stderr => Except.error { message := stderr }

/-- The `findmnt_get_devicepath` of `findmnt.rs`. -/
def findmnt_get_devicepath (output : Except String Json)
    (mount_path : String) : Except DeviceError (Option String) :=
  match findmnt output { key := "target", value := mount_path } with
  | Except.ok sources =>
    match sources with
    | [] => Except.ok none
    | [r] =>
      match hmGet r "source" with
      | some devicepath => Except.ok (some devicepath)
      | none => Except.error { message := "missing source field" }
    | _ =>
        Except.error
          { message := "multiple devices mounted at " ++ mount_path }
  | Except.error e => Except.error e

/-- The `DeviceMount` of `findmnt.rs`. -/
structure DeviceMount where
  mount_path : String
  fstype : String
deriving DecidableEq, Repr

/-- The `findmnt_get_mountpaths` of `findmnt.rs`: records without a
`target` field are dropped, a missing `fstype` becomes
`"unspecified"`. -/
def findmnt_get_mountpaths (output : Except String Json)
    (device_path : String) : Except DeviceError (List DeviceMount) :=
  match findmnt output { key := "source", value := device_path } with
  | Except.ok results =>
      Except.ok
        (results.filterMap fun entry =>
          match hmGet entry "target" with
          | some mountpath =>
              some { mount_path := mountpath
                     fstype := (hmGet entry "fstype").getD "unspecified" }
          | none => none)
  | Except.error e => Except.error e

/-!
## The volume service of `src/csi/src/nodeplugin_svc.rs`
-/

/-- The `ServiceError` of `nodeplugin_svc.rs` (payloads beyond the volume
id and the fsfreeze stderr are not observable in the model). -/
inductive ServiceError where
  | VolumeNotFound (volid : String)
  | InvalidVolumeId (volid : String)
  | FsfreezeFailed (volid : String) (error : String)
  | InternalFailure (volid : String)
  | IOError (volid : String)
  | InconsistentMountFs (volid : String)
  | BlockDeviceMount (volid : String)
deriving DecidableEq, Repr

/-- The `TypeOfMount` of `nodeplugin_svc.rs`. -/
inductive TypeOfMount where
  | FileSystem
  | RawBlock
deriving DecidableEq, Repr

/-- The `find_volume` of `nodeplugin_svc.rs`.  The external interactions are
explicit parameters: `parseOk` is whether `Uuid::parse_str` succeeded,
`device` the devname of the device `Device::lookup` resolved (if any),
and `output` the mount enumerator outcome consumed by
`findmnt::get_mountpaths`. -/
def find_volume (volume_id : String) (parseOk : Bool)
    (device : Option String) (output : Except String Json) :
    Except ServiceError TypeOfMount :=
  if ¬ parseOk then Except.error (ServiceError.InvalidVolumeId volume_id)
  else
    match device with
    | some device_path =>
      match findmnt_get_mountpaths output device_path with
      | Except.error _ =>
          Except.error (ServiceError.InternalFailure volume_id)
      | Except.ok mountpaths =>
        match mountpaths with
        | [] => Except.error (ServiceError.VolumeNotFound volume_id)
        | first :: _ =>
          let fstype := first.fstype
          if mountpaths.any (fun devmount => fstype ≠ devmount.fstype) then
            Except.error (ServiceError.InconsistentMountFs volume_id)
          else if fstype = "devtmpfs" then Except.ok TypeOfMount.RawBlock
          else Except.ok TypeOfMount.FileSystem
    | none => Except.error (ServiceError.VolumeNotFound volume_id)

/-- The anchor test of the specification's property `^/dev/`: the
string starts with the five characters `/dev/`. -/
def startsWithDev (s : String) : Bool :=
  s.data.take 5 = ['/', 'd', 'e', 'v', '/']

/-- A findmnt node for a tmpfs mount: its raw source has no bracketed
device tail. -/
def tmpfsNode : Json :=
  Json.obj [("source", Json.str "tmpfs"), ("target", Json.str "/tmp")]

/-- A findmnt node for an ext4 mount with a bracketed raw source. -/
def extNode : Json :=
  Json.obj
    [("source", Json.str "udev[/nvme0n1]"),
     ("target", Json.str "/mnt/x"),
     ("fstype", Json.str "ext4")]

/-- A findmnt tree with a single filesystem entry. -/
def sampleTree : Json := Json.obj [("filesystems", Json.arr [extNode])]

/-- A findmnt tree with two records sharing one target. -/
def dupTargetTree : Json :=
  Json.obj
    [("filesystems",
      Json.arr
        [Json.obj
           [("source", Json.str "/dev/sda1"), ("target", Json.str "/mnt/m")],
         Json.obj
           [("source", Json.str "/dev/sdb1"),
            ("target", Json.str "/mnt/m")]])]

/-- A findmnt tree mounting one device twice with two different
filesystem types. -/
def mixedFsTree : Json :=
  Json.obj
    [("filesystems",
      Json.arr
        [Json.obj
           [("source", Json.str "/dev/sdc"), ("target", Json.str "/a"),
            ("fstype", Json.str "ext4")],
         Json.obj
           [("source", Json.str "/dev/sdc"), ("target", Json.str "/b"),
            ("fstype", Json.str "xfs")]])]

/-- A findmnt tree with a raw-block (devtmpfs) mount of one device. -/
def rawBlockTree : Json :=
  Json.obj
    [("filesystems",
      Json.arr
        [Json.obj
           [("source", Json.str "devtmpfs[/sdd]"),
            ("target", Json.str "/var/lib/x"),
            ("fstype", Json.str "devtmpfs")]])]

end Csi

namespace Mayastor

/-- A sample bdev for concrete instantiations. -/
def sampleBdev : Bdev := { name := "bdev0", size_in_bytes := 1024, claimed := false }

/-- A freshly created child holding `sampleBdev`. -/
def sampleInit : NexusChild := NexusChild.new "child1" "nexus1" (some sampleBdev)

/-- An open child holding descriptor and handle `1`, as `open` leaves
it. -/
def sampleOpenChild : NexusChild :=
  { sampleInit with
    state := ChildState.Open
    desc := some 1
    bdev_handle := some 1 }

/-- A child created without a block device. -/
def sampleNoBdev : NexusChild := NexusChild.new "child2" "nexus1" none

/-- An environment whose claim succeeds with descriptor `1` and whose
configuration disables the error store. -/
def sampleEnv : OpenEnv :=
  { claimResult := some 1, enable_err_store := false, err_store_size := 0 }

end Mayastor

namespace Csi

/-- Membership survives `dropWhile`. -/
theorem mem_of_mem_dropWhile {p : Char → Bool} {l : List Char} {x : Char}
    (h : x ∈ l.dropWhile p) : x ∈ l := by
  induction l with
  | nil => simp at h
  | cons a rest ih =>
    rw [List.dropWhile_cons] at h
    by_cases hp : p a = true
    · simp only [hp, if_true] at h
      exact List.mem_cons_of_mem a (ih h)
    · simp only [hp, if_false] at h
      exact h

/-- The prefix delivered by `beforeLastClose` only uses characters of
the input. -/
theorem mem_of_mem_beforeLastClose {l p : List Char}
    (h : beforeLastClose l = some p) : ∀ x ∈ p, x ∈ l := by
  unfold beforeLastClose at h
  cases hd : l.reverse.dropWhile (fun c => c ≠ ']') with
  | nil => rw [hd] at h; cases h
  | cons y rest =>
    rw [hd] at h
    cases h
    intro x hx
    have hx₁ : x ∈ rest := List.mem_reverse.1 hx
    have hx₂ : x ∈ l.reverse.dropWhile (fun c => c ≠ ']') := by
      rw [hd]; exact List.mem_cons_of_mem y hx₁
    exact List.mem_reverse.1 (mem_of_mem_dropWhile hx₂)

/-- Without a `'['` there is no `[/` occurrence. -/
theorem afterLastOpenSlash_eq_none {l : List Char} (h : '[' ∉ l) :
    afterLastOpenSlash l = none := by
  induction l with
  | nil => rfl
  | cons a rest ih =>
    have ha : ¬(a = '[' ∧ rest.head? = some '/') := by
      rintro ⟨rfl, -⟩
      exact h (List.mem_cons_self _ _)
    have hr : '[' ∉ rest := fun hx => h (List.mem_cons_of_mem a hx)
    rw [afterLastOpenSlash, if_neg ha, ih hr]

/-- The suffix delivered by `afterLastOpenSlash` starts with `'/'`. -/
theorem afterLastOpenSlash_head {l d : List Char}
    (h : afterLastOpenSlash l = some d) : d.head? = some '/' := by
  induction l with
  | nil => cases h
  | cons a rest ih =>
    rw [afterLastOpenSlash] at h
    by_cases hc : a = '[' ∧ rest.head? = some '/'
    · rw [if_pos hc] at h
      cases hr : afterLastOpenSlash rest with
      | some s => rw [hr] at h; cases h; exact ih hr
      | none => rw [hr] at h; cases h; exact hc.2
    · rw [if_neg hc] at h; exact ih h

/-- The last `[/` occurrence in `A ++ '[' :: '/' :: X` with `'['`-free
`A` and `X` is the displayed one. -/
theorem afterLastOpenSlash_append {A X : List Char} (hA : '[' ∉ A)
    (hX : '[' ∉ X) :
    afterLastOpenSlash (A ++ '[' :: '/' :: X) = some ('/' :: X) := by
  induction A with
  | nil =>
    rw [List.nil_append, afterLastOpenSlash, if_pos ⟨rfl, rfl⟩]
    have hx : '[' ∉ ('/' :: X) := by
      intro hx
      rcases List.mem_cons.1 hx with h | h
      · cases h
      · exact hX h
    rw [afterLastOpenSlash_eq_none hx]
  | cons a A' ih =>
    have ha : a ≠ '[' := fun hx => hA (hx ▸ List.mem_cons_self a A')
    have hA' : '[' ∉ A' := fun hx => hA (List.mem_cons_of_mem a hx)
    have hc : ¬(a = '[' ∧ (A' ++ '[' :: '/' :: X).head? = some '/') := by
      rintro ⟨rfl, -⟩; exact ha rfl
    rw [List.cons_append, afterLastOpenSlash, if_neg hc, ih hA']

/-- A segment without `'['` never matches the regex. -/
theorem segDevice_eq_none {seg : List Char} (h : '[' ∉ seg) :
    segDevice seg = none := by
  unfold segDevice
  cases hb : beforeLastClose seg with
  | none => rfl
  | some p =>
    have hp : '[' ∉ p := fun hx => h (mem_of_mem_beforeLastClose hb '[' hx)
    exact afterLastOpenSlash_eq_none hp

/-- No matching segment, no capture. -/
theorem firstSegDevice_eq_none {segs : List (List Char)}
    (h : ∀ seg ∈ segs, '[' ∉ seg) : firstSegDevice segs = none := by
  induction segs with
  | nil => rfl
  | cons seg rest ih =>
    rw [firstSegDevice, segDevice_eq_none (h seg (List.mem_cons_self _ _)),
      ih fun s hs => h s (List.mem_cons_of_mem seg hs)]

/-- The capture delivered by `firstSegDevice` starts with `'/'`. -/
theorem firstSegDevice_head {segs : List (List Char)} {d : List Char}
    (h : firstSegDevice segs = some d) : d.head? = some '/' := by
  induction segs with
  | nil => cases h
  | cons seg rest ih =>
    rw [firstSegDevice] at h
    cases hs : segDevice seg with
    | some d' =>
      rw [hs] at h; cases h
      unfold segDevice at hs
      cases hb : beforeLastClose seg with
      | none => rw [hb] at hs; cases hs
      | some p => rw [hb] at hs; exact afterLastOpenSlash_head hs
    | none => rw [hs] at h; exact ih h

/-- A newline-free list is a single segment. -/
theorem splitNl_eq_of_not_mem {l : List Char} (h : '\n' ∉ l) :
    splitNl l = [l] := by
  induction l with
  | nil => rfl
  | cons c rest ih =>
    have hc : ¬(c = '\n') := fun hx => h (hx ▸ List.mem_cons_self c rest)
    have hr : '\n' ∉ rest := fun hx => h (List.mem_cons_of_mem c hx)
    rw [splitNl]
    simp only [hc, if_false, ih hr]

/-- The `splitNl` never returns the empty list of segments. -/
theorem splitNl_ne_nil (l : List Char) : splitNl l ≠ [] := by
  cases l with
  | nil => simp [splitNl]
  | cons c rest =>
    rw [splitNl]
    by_cases hc : c = '\n'
    · simp [hc]
    · simp only [hc, if_false]
      cases splitNl rest <;> simp

/-- Segments only use characters of the input. -/
theorem mem_of_mem_splitNl {l seg : List Char} (hseg : seg ∈ splitNl l) :
    ∀ x ∈ seg, x ∈ l := by
  induction l generalizing seg with
  | nil =>
    simp only [splitNl, List.mem_singleton] at hseg
    subst hseg
    intro x hx
    cases hx
  | cons c rest ih =>
    rw [splitNl] at hseg
    by_cases hc : c = '\n'
    · simp only [hc, if_true] at hseg
      rcases List.mem_cons.1 hseg with h | h
      · subst h; intro x hx; cases hx
      · exact fun x hx => List.mem_cons_of_mem c (ih h x hx)
    · simp only [hc, if_false] at hseg
      cases hr : splitNl rest with
      | nil => exact absurd hr (splitNl_ne_nil rest)
      | cons s ss =>
        rw [hr] at hseg
        rcases List.mem_cons.1 hseg with h | h
        · subst h
          intro x hx
          rcases List.mem_cons.1 hx with h | h
          · exact h ▸ List.mem_cons_self c rest
          · have hs : s ∈ splitNl rest := hr ▸ List.mem_cons_self s ss
            exact List.mem_cons_of_mem c (ih hs x h)
        · have hs : seg ∈ splitNl rest := hr ▸ List.mem_cons_of_mem s h
          exact fun x hx => List.mem_cons_of_mem c (ih hs x hx)

/-- A raw source without `'['` is passed through unchanged by the
normalization. -/
theorem convert_eq_self_of_no_open {s : String} (h : '[' ∉ s.data) :
    convert_findmnt_devicepath s = s := by
  have hsegs : ∀ seg ∈ splitNl s.data, '[' ∉ seg := by
    intro seg hs hx
    exact h (mem_of_mem_splitNl hs '[' hx)
  unfold convert_findmnt_devicepath
  rw [firstSegDevice_eq_none hsegs]

/-- The last `']'` of `W ++ [']']` is the displayed one. -/
theorem beforeLastClose_append (W : List Char) :
    beforeLastClose (W ++ [']']) = some W := by
  unfold beforeLastClose
  rw [List.reverse_append]
  simp only [List.reverse_cons, List.reverse_nil, List.nil_append,
    List.singleton_append, List.dropWhile_cons]
  simp [List.reverse_reverse]

/-- Normalizing `A[/X]` (with bracket- and newline-free `A` and `X`)
yields `/dev/X`. -/
theorem convert_bracket {A X : List Char} (hA : '[' ∉ A) (hAn : '\n' ∉ A)
    (hX : '[' ∉ X) (hXn : '\n' ∉ X) :
    convert_findmnt_devicepath (String.mk (A ++ '[' :: '/' :: X ++ [']'])) =
      String.mk ('/' :: 'd' :: 'e' :: 'v' :: '/' :: X) := by
  have hnl : '\n' ∉ A ++ '[' :: '/' :: X ++ [']'] := by
    intro hmem
    rcases List.mem_append.1 hmem with h | h
    · rcases List.mem_append.1 h with h | h
      · exact hAn h
      rcases List.mem_cons.1 h with h | h
      · exact absurd h (by decide)
      rcases List.mem_cons.1 h with h | h
      · exact absurd h (by decide)
      · exact hXn h
    · exact absurd h (by decide)
  have hseg : segDevice (A ++ '[' :: '/' :: X ++ [']']) = some ('/' :: X) := by
    unfold segDevice
    have hW : A ++ '[' :: '/' :: X ++ [']'] = (A ++ '[' :: '/' :: X) ++ [']'] := by
      simp
    rw [hW, beforeLastClose_append]
    exact afterLastOpenSlash_append hA hX
  have hdata : (String.mk (A ++ '[' :: '/' :: X ++ [']'])).data =
      A ++ '[' :: '/' :: X ++ [']'] := rfl
  unfold convert_findmnt_devicepath
  rw [hdata, splitNl_eq_of_not_mem hnl, firstSegDevice, hseg]

/-- A raw source whose normalization equals the filter value
equal-compares true under the `source` rule. -/
theorem filterEq_source_of_convert {v raw : String}
    (h : convert_findmnt_devicepath raw = v) :
    filterEq { key := "source", value := v } (Json.str raw) = true := by
  unfold filterEq
  simp [h]

/-- For a bracket-free filter value, the `source` comparison accepts
exactly the raw sources normalizing to it. -/
theorem filterEq_source_iff {v raw : String} (hv : '[' ∉ v.data) :
    filterEq { key := "source", value := v } (Json.str raw) = true ↔
      convert_findmnt_devicepath raw = v := by
  constructor
  · intro h
    unfold filterEq at h
    simp at h
    rcases h with h | h
    · exact h
    · rw [← h]
      exact convert_eq_self_of_no_open hv
  · exact filterEq_source_of_convert

/-- C5.  For a filter value `/dev/X` (with `X` free of `'['` and of
newlines), the `SOURCE` comparison of the mount-probe filter accepts the
raw sources `udev[/X]`, `dev[/X]`, `tmpfs[/X]` and `devtmpfs[/X]`, and
in general accepts exactly the raw sources whose normalization equals
the filter value — a raw source without a bracketed `/`-tail is
normalized to itself and hence compared literally. -/
theorem c5_source_filter_normalization (X : List Char)
    (hb : '[' ∉ X) (hn : '\n' ∉ X) :
    (∀ pre ∈ [['u', 'd', 'e', 'v'], ['d', 'e', 'v'],
        ['t', 'm', 'p', 'f', 's'], ['d', 'e', 'v', 't', 'm', 'p', 'f', 's']],
      filterEq
        { key := "source"
          value := String.mk ('/' :: 'd' :: 'e' :: 'v' :: '/' :: X) }
        (Json.str (String.mk (pre ++ '[' :: '/' :: X ++ [']']))) = true) ∧
    (∀ raw : String,
      filterEq
        { key := "source"
          value := String.mk ('/' :: 'd' :: 'e' :: 'v' :: '/' :: X) }
        (Json.str raw) = true ↔
      convert_findmnt_devicepath raw =
        String.mk ('/' :: 'd' :: 'e' :: 'v' :: '/' :: X)) := by
  have hv : '[' ∉ (String.mk ('/' :: 'd' :: 'e' :: 'v' :: '/' :: X)).data := by
    intro hmem
    have hm : ('[' : Char) = '/' ∨ '[' = 'd' ∨ '[' = 'e' ∨ '[' = 'v' ∨
        '[' = '/' ∨ '[' ∈ X := by simpa using hmem
    rcases hm with h | h | h | h | h | h
    · exact absurd h (by decide)
    · exact absurd h (by decide)
    · exact absurd h (by decide)
    · exact absurd h (by decide)
    · exact absurd h (by decide)
    · exact hb h
  refine ⟨?_, fun raw => filterEq_source_iff hv⟩
  intro pre hpre
  apply filterEq_source_of_convert
  fin_cases hpre <;>
    exact convert_bracket (by decide) (by decide) hb hn

/-- Witness for C5 at `X = nvme0n1` and raw source `udev[/nvme0n1]`. -/
theorem c5_witness :
    filterEq
      { key := "source"
        value := String.mk
          ('/' :: 'd' :: 'e' :: 'v' :: '/' ::
            ['n', 'v', 'm', 'e', '0', 'n', '1']) }
      (Json.str (String.mk (['u', 'd', 'e', 'v'] ++ '[' :: '/' ::
        ['n', 'v', 'm', 'e', '0', 'n', '1'] ++ [']']))) = true :=
  (c5_source_filter_normalization ['n', 'v', 'm', 'e', '0', 'n', '1']
      (by decide) (by decide)).1
    ['u', 'd', 'e', 'v'] (by decide)

/-- When the bracket regex matches a raw source, its normalization
starts with `/dev/`. -/
theorem startsWithDev_convert {raw : String}
    (h : udevpathMatches raw = true) :
    startsWithDev (convert_findmnt_devicepath raw) = true := by
  unfold udevpathMatches at h
  cases hf : firstSegDevice (splitNl raw.data) with
  | none => rw [hf] at h; cases h
  | some d =>
    have hd : d.head? = some '/' := firstSegDevice_head hf
    unfold convert_findmnt_devicepath
    rw [hf]
    cases d with
    | nil => cases hd
    | cons d0 drest =>
      have hd0 : d0 = '/' := by simpa using hd
      subst hd0
      rfl

/-- Every binding of an `hmInsert` result is an old binding or the
inserted one. -/
theorem mem_hmInsert {h : List (String × String)} {k v : String}
    {p : String × String} (hp : p ∈ hmInsert h k v) :
    p ∈ h ∨ p = (k, v) := by
  unfold hmInsert at hp
  by_cases hc : h.any (fun q => q.1 = k) = true
  · rw [if_pos hc] at hp
    rcases List.mem_map.1 hp with ⟨q, hq, hpe⟩
    by_cases hqk : q.1 = k
    · right; rw [← hpe, if_pos hqk]
    · left; rw [← hpe, if_neg hqk]; exact hq
  · rw [if_neg hc] at hp
    rcases List.mem_append.1 hp with h1 | h1
    · exact Or.inl h1
    · exact Or.inr (List.mem_singleton.1 h1)

/-- Through the `jsonmap_to_hashmap` fold, every `source` binding is
the normalization of some raw string. -/
theorem jmFold_source {m : List (String × Json)} :
    ∀ {acc : List (String × String)},
      (∀ p ∈ acc, p.1 = "source" →
        ∃ raw, p.2 = convert_findmnt_devicepath raw) →
      ∀ p ∈ m.foldl jmStep acc, p.1 = "source" →
        ∃ raw, p.2 = convert_findmnt_devicepath raw := by
  induction m with
  | nil => intro acc hacc p hp; exact hacc p hp
  | cons kv rest ih =>
    intro acc hacc p hp hps
    rw [List.foldl_cons] at hp
    refine ih ?_ p hp hps
    intro q hq hqs
    unfold jmStep at hq
    cases hkv : kv.2 with
    | str s =>
      rw [hkv] at hq
      rcases mem_hmInsert hq with h1 | h1
      · exact hacc q h1 hqs
      · subst h1
        by_cases hk : kv.1 = "source"
        · exact ⟨s, by simp [hk]⟩
        · exact absurd hqs hk
    | obj l => rw [hkv] at hq; exact hacc q hq hqs
    | arr l => rw [hkv] at hq; exact hacc q hq hqs
    | other => rw [hkv] at hq; exact hacc q hq hqs

/-- The `hmGet` only returns bindings of the map. -/
theorem hmGet_mem {l : List (String × String)} {k v : String}
    (h : hmGet l k = some v) : (k, v) ∈ l := by
  induction l with
  | nil => cases h
  | cons p rest ih =>
    cases p with
    | mk k' v' =>
      rw [hmGet] at h
      by_cases hk : k' = k
      · rw [if_pos hk] at h
        cases h
        subst hk
        exact List.mem_cons_self _ _
      · rw [if_neg hk] at h
        exact List.mem_cons_of_mem _ (ih h)

/-- The `source` value of a record built by `jsonmap_to_hashmap` is a
normalization image. -/
theorem jsonmap_source {m : List (String × Json)} {v : String}
    (h : hmGet (jsonmap_to_hashmap m) "source" = some v) :
    ∃ raw, v = convert_findmnt_devicepath raw := by
  have hm := hmGet_mem h
  have hs := @jmFold_source m []
    (by intro p hp; cases hp) _ hm rfl
  simpa using hs

mutual

/-- Every record collected by `filter_findmnt` is a
`jsonmap_to_hashmap` image. -/
theorem mem_filter_findmnt {j : Json} {f : FindmntFilter}
    {r : List (String × String)} (h : r ∈ filter_findmnt j f) :
    ∃ m, r = jsonmap_to_hashmap m := by
  cases j with
  | str s =>
    exact absurd
      (show r ∈ ([] : List (List (String × String))) from h)
      (List.not_mem_nil _)
  | other =>
    exact absurd
      (show r ∈ ([] : List (List (String × String))) from h)
      (List.not_mem_nil _)
  | arr es =>
    exact mem_filterElems (show r ∈ filterElems es f from h)
  | obj m =>
    rw [filter_findmnt] at h
    rcases List.mem_append.1 h with h | h
    · cases hl : jlookup m f.key with
      | none => rw [hl] at h; cases h
      | some v =>
        rw [hl] at h
        replace h :
            r ∈ (if filterEq f v = true then [jsonmap_to_hashmap m]
              else []) := h
        by_cases hf : filterEq f v = true
        · rw [if_pos hf] at h
          exact ⟨m, List.mem_singleton.1 h⟩
        · rw [if_neg hf] at h; cases h
    · exact mem_filterFields h

/-- Every record collected from the elements of an array is a
`jsonmap_to_hashmap` image. -/
theorem mem_filterElems {es : List Json} {f : FindmntFilter}
    {r : List (String × String)} (h : r ∈ filterElems es f) :
    ∃ m, r = jsonmap_to_hashmap m := by
  cases es with
  | nil => rw [filterElems] at h; cases h
  | cons e rest =>
    rw [filterElems] at h
    rcases List.mem_append.1 h with h | h
    · exact mem_filter_findmnt h
    · exact mem_filterElems h

/-- Every record collected from the array-valued fields of an object is
a `jsonmap_to_hashmap` image. -/
theorem mem_filterFields {ms : List (String × Json)} {f : FindmntFilter}
    {r : List (String × String)} (h : r ∈ filterFields ms f) :
    ∃ m, r = jsonmap_to_hashmap m := by
  cases ms with
  | nil => rw [filterFields] at h; cases h
  | cons kv rest =>
    rw [filterFields] at h
    rcases List.mem_append.1 h with h | h
    · by_cases ha : kv.2.isArr = true
      · rw [if_pos ha] at h
        exact mem_filter_findmnt h
      · rw [if_neg ha] at h; cases h
    · exact mem_filterFields h

end

/-- C9 counterexample.  With the enumerator reporting a tmpfs mount at
`/tmp` and the probe filtering on `{TARGET, /tmp}` — exactly what
`findmnt_get_devicepath("/tmp")` does — the returned record's
normalized source is `tmpfs`, which does not match `^/dev/`. -/
theorem c9_counterexample :
    filter_findmnt tmpfsNode { key := "target", value := "/tmp" } =
      [[("source", "tmpfs"), ("target", "/tmp")]] ∧
    findmnt_get_devicepath (Except.ok tmpfsNode) "/tmp" =
      Except.ok (some "tmpfs") ∧
    startsWithDev "tmpfs" = false := by
  refine ⟨by decide, by decide, by decide⟩

/-- C9 (amended).  Every record returned by the mount probe carries as
`source` the normalization of some raw source string; whenever that raw
source matches the bracket pattern `.*[(/.*)]`, the normalized source
matches `^/dev/`.  A raw source without a bracketed `/`-tail is passed
through unchanged and need not start with `/dev/`. -/
theorem c9_source_normalization {j : Json} {f : FindmntFilter}
    {r : List (String × String)} {v : String}
    (hr : r ∈ filter_findmnt j f) (hv : hmGet r "source" = some v) :
    ∃ raw, v = convert_findmnt_devicepath raw ∧
      (udevpathMatches raw = true → startsWithDev v = true) := by
  rcases mem_filter_findmnt hr with ⟨m, rfl⟩
  rcases jsonmap_source hv with ⟨raw, rfl⟩
  exact ⟨raw, rfl, fun hm => startsWithDev_convert hm⟩

/-- Witness for C9 on the sample tree: the record for `/mnt/x` reports
the normalized source `/dev/nvme0n1`, whose raw source `udev[/nvme0n1]`
matches the bracket pattern, and indeed it starts with `/dev/`. -/
theorem c9_witness :
    ∃ raw, "/dev/nvme0n1" = convert_findmnt_devicepath raw ∧
      (udevpathMatches raw = true →
        startsWithDev "/dev/nvme0n1" = true) :=
  @c9_source_normalization sampleTree
    { key := "target", value := "/mnt/x" }
    [("source", "/dev/nvme0n1"), ("target", "/mnt/x"),
      ("fstype", "ext4")]
    "/dev/nvme0n1"
    (by decide) (by decide)

/-- The `findmnt_get_devicepath` on a successful enumerator run is a case
split on the matching records. -/
theorem findmnt_get_devicepath_eq (j : Json) (mount_path : String) :
    findmnt_get_devicepath (Except.ok j) mount_path =
      match filter_findmnt j { key := "target", value := mount_path } with
      | [] => Except.ok none
      | [r] =>
        (match hmGet r "source" with
         | some d => Except.ok (some d)
         | none => Except.error { message := "missing source field" })
      | _ =>
          Except.error
            { message := "multiple devices mounted at " ++ mount_path } :=
  rfl

/-- C6.  `get_device_for_mount` follows the cardinality policy over the
records matching `{TARGET, mount_path}`: zero matches return `None`,
one match returns `Some` of that record's (already normalized) source,
two or more matches return the `MultipleDevices` error. -/
theorem c6_cardinality_policy (j : Json) (mount_path : String) :
    (filter_findmnt j { key := "target", value := mount_path } = [] →
      findmnt_get_devicepath (Except.ok j) mount_path = Except.ok none) ∧
    (∀ r s,
      filter_findmnt j { key := "target", value := mount_path } = [r] →
      hmGet r "source" = some s →
      findmnt_get_devicepath (Except.ok j) mount_path =
        Except.ok (some s)) ∧
    (2 ≤ (filter_findmnt j { key := "target", value := mount_path }).length →
      findmnt_get_devicepath (Except.ok j) mount_path =
        Except.error
          { message := "multiple devices mounted at " ++ mount_path }) := by
  refine ⟨?_, ?_, ?_⟩
  · intro h
    rw [findmnt_get_devicepath_eq, h]
  · intro r s h hs
    rw [findmnt_get_devicepath_eq, h]
    simp [hs]
  · intro h
    cases hl : filter_findmnt j { key := "target", value := mount_path } with
    | nil => rw [hl] at h; simp at h
    | cons a tail =>
      cases tail with
      | nil => rw [hl] at h; simp at h
      | cons b rest => rw [findmnt_get_devicepath_eq, hl]

/-- Witness for C6: two records mounted at `/mnt/m` yield the
`MultipleDevices` error. -/
theorem c6_witness :
    findmnt_get_devicepath (Except.ok dupTargetTree) "/mnt/m" =
      Except.error
        { message := "multiple devices mounted at " ++ "/mnt/m" } :=
  (c6_cardinality_policy dupTargetTree "/mnt/m").2.2 (by decide)

/-- C7.  `find_volume` on a parsed volume id: a registry miss yields
`VolumeNotFound`; with a resolved device, an empty probe result yields
`VolumeNotFound`; two records with different fstypes yield
`InconsistentMountFs`; a common fstype `devtmpfs` yields `RawBlock` and
any other common fstype yields `FileSystem`. -/
theorem c7_find_volume_classification (volid p : String) (j : Json)
    (l : List DeviceMount)
    (hl : findmnt_get_mountpaths (Except.ok j) p = Except.ok l) :
    (find_volume volid true none (Except.ok j) =
      Except.error (ServiceError.VolumeNotFound volid)) ∧
    (l = [] →
      find_volume volid true (some p) (Except.ok j) =
        Except.error (ServiceError.VolumeNotFound volid)) ∧
    ((∃ m1 ∈ l, ∃ m2 ∈ l, m1.fstype ≠ m2.fstype) →
      find_volume volid true (some p) (Except.ok j) =
        Except.error (ServiceError.InconsistentMountFs volid)) ∧
    (∀ fs, l ≠ [] → (∀ m ∈ l, m.fstype = fs) →
      (fs = "devtmpfs" →
        find_volume volid true (some p) (Except.ok j) =
          Except.ok TypeOfMount.RawBlock) ∧
      (fs ≠ "devtmpfs" →
        find_volume volid true (some p) (Except.ok j) =
          Except.ok TypeOfMount.FileSystem)) := by
  have h0 : find_volume volid true (some p) (Except.ok j) =
      match findmnt_get_mountpaths (Except.ok j) p with
      | Except.error _ => Except.error (ServiceError.InternalFailure volid)
      | Except.ok mountpaths =>
        match mountpaths with
        | [] => Except.error (ServiceError.VolumeNotFound volid)
        | first :: _ =>
          if mountpaths.any
              (fun devmount => first.fstype ≠ devmount.fstype) then
            Except.error (ServiceError.InconsistentMountFs volid)
          else if first.fstype = "devtmpfs" then
            Except.ok TypeOfMount.RawBlock
          else Except.ok TypeOfMount.FileSystem := rfl
  refine ⟨rfl, ?_, ?_, ?_⟩
  · intro h
    subst h
    rw [h0, hl]
  · rintro ⟨m1, hm1, m2, hm2, hne⟩
    cases hcl : l with
    | nil => rw [hcl] at hm1; cases hm1
    | cons first rest =>
      subst hcl
      rw [h0, hl]
      have hany : (first :: rest).any
          (fun devmount => first.fstype ≠ devmount.fstype) = true := by
        rw [List.any_eq_true]
        by_cases hf1 : first.fstype = m1.fstype
        · exact ⟨m2, hm2, by simp [hf1 ▸ hne]⟩
        · exact ⟨m1, hm1, by simp [hf1]⟩
      simp only [hany, if_true]
  · intro fs hne hall
    cases hcl : l with
    | nil => exact absurd hcl hne
    | cons first rest =>
      subst hcl
      have hfirst : first.fstype = fs :=
        hall first (List.mem_cons_self _ _)
      have hany : (first :: rest).any
          (fun devmount => first.fstype ≠ devmount.fstype) = false := by
        rw [List.any_eq_false]
        intro m hm
        have hms : m.fstype = fs := hall m hm
        simp [hfirst, hms]
      constructor
      · intro hdev
        rw [h0, hl]
        simp only [hany, Bool.false_eq_true, if_false]
        simp [hfirst, hdev]
      · intro hdev
        have hfd : ¬ (first.fstype = "devtmpfs") := fun hx =>
          hdev (hfirst ▸ hx)
        rw [h0, hl]
        simp only [hany, Bool.false_eq_true, if_false]
        simp [hfd]

/-- Witness for C7: the mixed-fstype tree (ext4 and xfs mounts of
`/dev/sdc`) makes `find_volume` fail with `InconsistentMountFs`. -/
theorem c7_witness :
    find_volume "vol-1" true (some "/dev/sdc") (Except.ok mixedFsTree) =
      Except.error (ServiceError.InconsistentMountFs "vol-1") :=
  ((c7_find_volume_classification "vol-1" "/dev/sdc" mixedFsTree
      [{ mount_path := "/a", fstype := "ext4" },
       { mount_path := "/b", fstype := "xfs" }] (by decide)).2.2.1)
    ⟨{ mount_path := "/a", fstype := "ext4" }, by decide,
     { mount_path := "/b", fstype := "xfs" }, by decide, by decide⟩

end Csi

namespace Mayastor

/-- Reduction of `open` for a non-faulted child holding a bdev: the
call runs the size check and then the claim attempt. -/
theorem open_eq_of_bdev {c : NexusChild} {b : Bdev} (ps : Nat)
    (env : OpenEnv) (hb : c.bdev = some b)
    (hf : ∀ r, c.state ≠ ChildState.Faulted r) :
    c.open ps env =
      (if b.size_in_bytes < ps then
        some { result := Except.error
                 (ChildError.ChildTooSmall b.size_in_bytes ps)
               child := { c with state := ChildState.ConfigInvalid }
               claimAttempted := false }
      else
        match env.claimResult with
        | none =>
            some { result := Except.error ChildError.OpenChild
                   child :=
                     { c with state := ChildState.Faulted Reason.CantOpen }
                   claimAttempted := true }
        | some d =>
            some { result := Except.ok c.name
                   child :=
                     { c with
                       desc := some d
                       bdev_handle := some d
                       err_store :=
                         if env.enable_err_store then
                           some env.err_store_size
                         else c.err_store
                       state := ChildState.Open }
                   claimAttempted := true }) := by
  unfold NexusChild.open
  split
  · next r heq => exact absurd heq (hf r)
  · next =>
    simp only [hb]
    by_cases hps : b.size_in_bytes < ps
    · simp [hps]
    · simp only [gt_iff_lt, hps, if_false]
      cases env.claimResult with
      | none => rfl
      | some d => by_cases he : env.enable_err_store <;> simp [he]

/-- A non-faulted child without a bdev makes `open` hit the `unwrap`
panic. -/
theorem open_none_of_no_bdev (c : NexusChild) (ps : Nat)
    (env : OpenEnv) (hb : c.bdev = none)
    (hf : ∀ r, c.state ≠ ChildState.Faulted r) :
    c.open ps env = none := by
  unfold NexusChild.open
  split
  · next r heq => exact absurd heq (hf r)
  · next => simp [hb]

/-- C3.  The code panics: `open` on a child without a block-device
reference (in any non-faulted state) reaches
`self.bdev.as_ref().unwrap()` on `None` instead of returning the
declared `OpenWithoutBdev` error. -/
theorem c3_open_without_bdev_panics (c : NexusChild) (ps : Nat)
    (env : OpenEnv) (hb : c.bdev = none)
    (hf : ∀ r, c.state ≠ ChildState.Faulted r) :
    c.open ps env = none :=
  open_none_of_no_bdev c ps env hb hf

/-- Witness for C3: a freshly created child without a bdev panics on
`open`. -/
theorem c3_witness : NexusChild.open sampleNoBdev 1024 sampleEnv = none :=
  c3_open_without_bdev_panics sampleNoBdev 1024 sampleEnv rfl
    (fun _ h => ChildState.noConfusion h)

/-- C1 counterexample.  `sampleOpenChild` is `Open` and holds
descriptor and handle `1`; calling `open` again (size check passing,
fresh claim yielding descriptor `2`) does attempt a new claim
(`claimAttempted = true`) and replaces the descriptor and I/O handle by
`2`, so the old ones are not left in place. -/
theorem c1_counterexample :
    sampleOpenChild.desc = some 1 ∧
    NexusChild.open sampleOpenChild 1024
        { claimResult := some 2, enable_err_store := false
          err_store_size := 0 } =
      some { result := Except.ok "child1"
             child := { sampleOpenChild with
               desc := some 2, bdev_handle := some 2 }
             claimAttempted := true } := by
  exact ⟨by decide, by decide⟩

/-- C1 (amended).  Calling `open` on an already-`Open` child whose size
check passes re-attempts the claim; on claim success it replaces the
descriptor and the I/O handle with the freshly obtained ones and
returns the child's identity name. -/
theorem c1_open_on_open_reclaims (c : NexusChild) (b : Bdev)
    (env : OpenEnv) (ps : Nat) (d : Descriptor)
    (hs : c.state = ChildState.Open) (hb : c.bdev = some b)
    (hsize : ps ≤ b.size_in_bytes) (hclaim : env.claimResult = some d) :
    c.open ps env = some
      { result := Except.ok c.name
        child :=
          { c with
            desc := some d
            bdev_handle := some d
            err_store :=
              if env.enable_err_store then some env.err_store_size
              else c.err_store
            state := ChildState.Open }
        claimAttempted := true } := by
  have hf : ∀ r, c.state ≠ ChildState.Faulted r := by
    intro r h
    rw [hs] at h
    cases h
  rw [open_eq_of_bdev ps env hb hf, if_neg (not_lt.2 hsize), hclaim]

/-- Witness for C1's amended statement at `sampleOpenChild`. -/
theorem c1_witness :
    NexusChild.open sampleOpenChild 1024 sampleEnv = some
      { result := Except.ok sampleOpenChild.name
        child :=
          { sampleOpenChild with
            desc := some 1
            bdev_handle := some 1
            err_store :=
              if sampleEnv.enable_err_store then
                some sampleEnv.err_store_size
              else sampleOpenChild.err_store
            state := ChildState.Open }
        claimAttempted := true } :=
  c1_open_on_open_reclaims sampleOpenChild sampleBdev sampleEnv 1024 1
    rfl rfl (by decide) rfl

/-- C4.  With a bdev of size `child_size` and a non-faulted state,
`open(child_size)` passes the size check (it reaches the claim attempt
and never reports `ChildTooSmall`), while any `parent_size >
child_size` returns `ChildTooSmall` carrying both sizes and transitions
the child to `ConfigInvalid`. -/
theorem c4_size_check (c : NexusChild) (b : Bdev) (env : OpenEnv)
    (hb : c.bdev = some b) (hf : ∀ r, c.state ≠ ChildState.Faulted r) :
    (∃ o, c.open b.size_in_bytes env = some o ∧
      o.claimAttempted = true ∧
      ∀ cs ps, o.result ≠ Except.error (ChildError.ChildTooSmall cs ps)) ∧
    (∀ ps, b.size_in_bytes < ps →
      c.open ps env = some
        { result := Except.error
            (ChildError.ChildTooSmall b.size_in_bytes ps)
          child := { c with state := ChildState.ConfigInvalid }
          claimAttempted := false }) := by
  constructor
  · rw [open_eq_of_bdev b.size_in_bytes env hb hf,
      if_neg (lt_irrefl b.size_in_bytes)]
    cases env.claimResult with
    | none =>
      refine ⟨_, rfl, rfl, ?_⟩
      intro cs ps h
      simp at h
    | some d =>
      refine ⟨_, rfl, rfl, ?_⟩
      intro cs ps h
      simp at h
  · intro ps hps
    rw [open_eq_of_bdev ps env hb hf, if_pos hps]

/-- Witness for C4 at `sampleInit` (size 1024) opened with parent size
2048. -/
theorem c4_witness :
    NexusChild.open sampleInit 2048 sampleEnv = some
      { result := Except.error (ChildError.ChildTooSmall 1024 2048)
        child := { sampleInit with state := ChildState.ConfigInvalid }
        claimAttempted := false } := by
  have h := (c4_size_check sampleInit sampleBdev sampleEnv rfl
    (fun _ h => ChildState.noConfusion h)).2 2048 (by decide)
  exact h

/-- From a state carrying neither descriptor nor handle, `open`
preserves the state-machine invariant whatever its outcome. -/
theorem open_inv_aux (c : NexusChild) (ps : Nat) (env : OpenEnv)
    (o : OpenOutcome) (hdesc : c.desc = none)
    (hhdl : c.bdev_handle = none)
    (hf : ∀ r, c.state ≠ ChildState.Faulted r)
    (hopen : c.open ps env = some o) : childInv o.child = true := by
  cases hb : c.bdev with
  | none =>
    rw [open_none_of_no_bdev c ps env hb hf] at hopen
    cases hopen
  | some b =>
    rw [open_eq_of_bdev ps env hb hf] at hopen
    by_cases hps : b.size_in_bytes < ps
    · rw [if_pos hps] at hopen
      cases hopen
      simp [childInv, hdesc, hhdl]
    · rw [if_neg hps] at hopen
      cases hcr : env.claimResult with
      | none =>
        rw [hcr] at hopen
        cases hopen
        simp [childInv, hdesc, hhdl]
      | some d =>
        rw [hcr] at hopen
        cases hopen
        by_cases he : env.enable_err_store <;> simp [childInv, hb, he]

/-- C2 counterexample.  `sampleOpenChild` satisfies the invariants
(`Open` with bdev, descriptor and handle present); a second `open`
whose claim fails transitions it to `Faulted(CantOpen)` while leaving
descriptor and I/O handle in place, violating I3. -/
theorem c2_counterexample :
    childInv sampleOpenChild = true ∧
    NexusChild.open sampleOpenChild 1024
        { claimResult := none, enable_err_store := false
          err_store_size := 0 } =
      some { result := Except.error ChildError.OpenChild
             child := { sampleOpenChild with
               state := ChildState.Faulted Reason.CantOpen }
             claimAttempted := true } ∧
    ({ sampleOpenChild with
        state := ChildState.Faulted Reason.CantOpen } : NexusChild).desc =
      some 1 ∧
    childInv { sampleOpenChild with
        state := ChildState.Faulted Reason.CantOpen } = false := by
  exact ⟨by decide, by decide, by decide, by decide⟩

/-- C2 (amended).  The state-machine invariant (Open ⇒ bdev, descriptor
and handle present; any other state ⇒ descriptor and handle absent,
which implies I1–I3) is preserved by `open` from every non-`Open` state
— in particular when `open` fails at the claim step and moves the child
to `Faulted(CantOpen)` — and by `open` from `Open` when the claim
succeeds, by `close`, `fault`, `offline`, `out_of_sync` and `destroy`
from every state, with `online` identical to `open`.  The exception
forced by the counterexample: `open` on an already-`Open` child that
fails (size check or claim) keeps the old descriptor and handle. -/
theorem c2_invariant_preservation :
    (∀ (c : NexusChild) (ps : Nat) (env : OpenEnv) (o : OpenOutcome),
      childInv c = true → c.state ≠ ChildState.Open →
      c.open ps env = some o → childInv o.child = true) ∧
    (∀ (c : NexusChild) (b : Bdev) (ps : Nat) (env : OpenEnv)
        (o : OpenOutcome) (d : Descriptor),
      c.state = ChildState.Open → c.bdev = some b →
      ps ≤ b.size_in_bytes → env.claimResult = some d →
      c.open ps env = some o → childInv o.child = true) ∧
    (∀ c : NexusChild, childInv (c.close).2 = true) ∧
    (∀ (c : NexusChild) (r : Option Reason),
      childInv (c.fault r) = true) ∧
    (∀ c : NexusChild, childInv c.offline = true) ∧
    (∀ (c : NexusChild) (oos : Bool),
      childInv c = true → childInv (c.out_of_sync oos) = true) ∧
    (∀ (c : NexusChild) (ps : Nat) (env : OpenEnv),
      c.online ps env = c.open ps env) ∧
    (∀ (c : NexusChild) (dr : Bool) (o : Bool × NexusChild),
      childInv c = true → c.destroy dr = some o →
      childInv o.2 = true) := by
  refine ⟨?_, ?_, ?_, ?_, ?_, ?_, ?_, ?_⟩
  · intro c ps env o hinv hno hopen
    cases hs : c.state with
    | Open => exact absurd hs hno
    | Faulted r =>
      simp only [NexusChild.open, hs] at hopen
      cases hopen
      exact hinv
    | Init =>
      have hf : ∀ r, c.state ≠ ChildState.Faulted r := by
        rw [hs]; intro r h; cases h
      rw [childInv, hs] at hinv
      simp only [Bool.and_eq_true, Option.isNone_iff_eq_none] at hinv
      exact open_inv_aux c ps env o hinv.1 hinv.2 hf hopen
    | ConfigInvalid =>
      have hf : ∀ r, c.state ≠ ChildState.Faulted r := by
        rw [hs]; intro r h; cases h
      rw [childInv, hs] at hinv
      simp only [Bool.and_eq_true, Option.isNone_iff_eq_none] at hinv
      exact open_inv_aux c ps env o hinv.1 hinv.2 hf hopen
    | Closed =>
      have hf : ∀ r, c.state ≠ ChildState.Faulted r := by
        rw [hs]; intro r h; cases h
      rw [childInv, hs] at hinv
      simp only [Bool.and_eq_true, Option.isNone_iff_eq_none] at hinv
      exact open_inv_aux c ps env o hinv.1 hinv.2 hf hopen
  · intro c b ps env o d hs hb hsize hcr hopen
    have hf : ∀ r, c.state ≠ ChildState.Faulted r := by
      rw [hs]; intro r h; cases h
    rw [open_eq_of_bdev ps env hb hf, if_neg (not_lt.2 hsize), hcr]
      at hopen
    cases hopen
    by_cases he : env.enable_err_store <;> simp [childInv, hb, he]
  · intro c
    simp [childInv, NexusChild.close, NexusChild._close]
  · intro c r
    simp [childInv, NexusChild.fault, NexusChild._close]
  · intro c
    simp [childInv, NexusChild.offline, NexusChild.close,
      NexusChild._close]
  · intro c oos hinv
    cases oos with
    | false => exact hinv
    | true =>
      simp [childInv, NexusChild.out_of_sync, NexusChild.fault,
        NexusChild._close]
  · intro c ps env
    rfl
  · intro c dr o hinv hdm
    unfold NexusChild.destroy at hdm
    by_cases hcs : c.status = ChildState.Closed
    · rw [if_pos hcs] at hdm
      cases hb : c.bdev with
      | none =>
        rw [hb] at hdm
        cases hdm
        exact hinv
      | some b =>
        rw [hb] at hdm
        cases hdm
        exact hinv
    · rw [if_neg hcs] at hdm
      cases hdm

/-- Witness for C2: opening `sampleInit` (invariant-satisfying,
non-`Open`) with a successful claim yields an invariant-satisfying
open child. -/
theorem c2_witness :
    childInv { sampleInit with
      desc := some 1
      bdev_handle := some 1
      state := ChildState.Open } = true :=
  (c2_invariant_preservation).1 sampleInit 1024 sampleEnv
    { result := Except.ok "child1"
      child := { sampleInit with
        desc := some 1
        bdev_handle := some 1
        state := ChildState.Open }
      claimAttempted := true }
    (by decide) (by decide) (by decide)

/-- The error-store frame of `open` from any non-faulted state. -/
theorem open_err_store_aux (c : NexusChild) (ps : Nat) (env : OpenEnv)
    (o : OpenOutcome) (hf : ∀ r, c.state ≠ ChildState.Faulted r)
    (hopen : c.open ps env = some o) :
    (∀ s, o.result = Except.ok s → env.enable_err_store = true →
      o.child.err_store = some env.err_store_size) ∧
    (env.enable_err_store = false → o.child.err_store = c.err_store) ∧
    (∀ e, o.result = Except.error e →
      o.child.err_store = c.err_store) := by
  cases hb : c.bdev with
  | none =>
    rw [open_none_of_no_bdev c ps env hb hf] at hopen
    cases hopen
  | some b =>
    rw [open_eq_of_bdev ps env hb hf] at hopen
    by_cases hps : b.size_in_bytes < ps
    · rw [if_pos hps] at hopen
      cases hopen
      exact ⟨(fun s hres => by cases hres), (fun _ => rfl), (fun e _ => rfl)⟩
    · rw [if_neg hps] at hopen
      cases hcr : env.claimResult with
      | none =>
        rw [hcr] at hopen
        cases hopen
        exact ⟨(fun s hres => by cases hres), (fun _ => rfl), (fun e _ => rfl)⟩
      | some d =>
        rw [hcr] at hopen
        cases hopen
        refine ⟨fun s _ hen => by simp [hen], fun hen => by simp [hen],
          fun e hres => by cases hres⟩

/-- C8 counterexample.  Open with error tracking enabled (ring size
16), close, then open again with the flag disabled: the error history
remains allocated at `some 16` instead of being disabled. -/
theorem c8_counterexample :
    ((NexusChild.open sampleInit 1024
        { claimResult := some 1, enable_err_store := true
          err_store_size := 16 }).bind
      (fun o1 =>
        (NexusChild.open (o1.child.close).2 1024 sampleEnv).map
          (fun o2 => o2.child.err_store))) = some (some 16) ∧
    (some 16 : Option Nat) ≠ none := by
  exact ⟨by decide, by decide⟩

/-- C8 (amended).  `open` allocates the error-history ring (of the
configured size) exactly when the configuration flag is set at an
`open` call that reaches success; an `open` with the flag disabled —
and every failing `open` — leaves the child's previous error history
in place: it is never disabled again. -/
theorem c8_err_store_frame (c : NexusChild) (ps : Nat) (env : OpenEnv)
    (o : OpenOutcome) (hopen : c.open ps env = some o) :
    (∀ s, o.result = Except.ok s → env.enable_err_store = true →
      o.child.err_store = some env.err_store_size) ∧
    (env.enable_err_store = false → o.child.err_store = c.err_store) ∧
    (∀ e, o.result = Except.error e →
      o.child.err_store = c.err_store) := by
  cases hs : c.state with
  | Faulted r =>
    simp only [NexusChild.open, hs] at hopen
    cases hopen
    exact ⟨(fun s hres => by cases hres), (fun _ => rfl), (fun e _ => rfl)⟩
  | Init =>
    exact open_err_store_aux c ps env o
      (by rw [hs]; intro r h; cases h) hopen
  | ConfigInvalid =>
    exact open_err_store_aux c ps env o
      (by rw [hs]; intro r h; cases h) hopen
  | Open =>
    exact open_err_store_aux c ps env o
      (by rw [hs]; intro r h; cases h) hopen
  | Closed =>
    exact open_err_store_aux c ps env o
      (by rw [hs]; intro r h; cases h) hopen

/-- Witness for C8: a successful `open` with the flag set allocates a
ring of the configured size 16. -/
theorem c8_witness :
    ({ sampleInit with
        desc := some 1
        bdev_handle := some 1
        err_store := some 16
        state := ChildState.Open } : NexusChild).err_store = some 16 :=
  (c8_err_store_frame sampleInit 1024
      { claimResult := some 1, enable_err_store := true
        err_store_size := 16 }
      { result := Except.ok "child1"
        child := { sampleInit with
          desc := some 1
          bdev_handle := some 1
          err_store := some 16
          state := ChildState.Open }
        claimAttempted := true }
      (by decide)).1 "child1" rfl rfl

/-- C10.  `get_dev` returns `ChildClosed` whenever the state is not
`Open` — `Init`, `ConfigInvalid`, `Closed` and `Faulted(_)` alike — and
on an `Open` child returns the bdev/handle pair, or `ChildInvalid` if
either is absent. -/
theorem c10_get_dev_states (c : NexusChild) :
    (c.state ≠ ChildState.Open →
      c.get_dev = Except.error ChildError.ChildClosed) ∧
    (∀ b h, c.state = ChildState.Open → c.bdev = some b →
      c.bdev_handle = some h → c.get_dev = Except.ok (b, h)) ∧
    (c.state = ChildState.Open →
      (c.bdev = none ∨ c.bdev_handle = none) →
      c.get_dev = Except.error ChildError.ChildInvalid) := by
  refine ⟨?_, ?_, ?_⟩
  · intro hno
    have hcan : c.can_rw = false := by
      simp [NexusChild.can_rw, NexusChild.status, hno]
    simp [NexusChild.get_dev, hcan]
  · intro b h hs hb hh
    have hcan : c.can_rw = true := by
      simp [NexusChild.can_rw, NexusChild.status, hs]
    simp [NexusChild.get_dev, hcan, hb, hh]
  · intro hs hor
    have hcan : c.can_rw = true := by
      simp [NexusChild.can_rw, NexusChild.status, hs]
    rcases hor with hb | hh
    · simp [NexusChild.get_dev, hcan, hb]
    · cases hb2 : c.bdev with
      | none => simp [NexusChild.get_dev, hcan, hb2]
      | some b => simp [NexusChild.get_dev, hcan, hb2, hh]

/-- Witness for C10: an `Init` child gets `ChildClosed` from
`get_dev`. -/
theorem c10_witness :
    NexusChild.get_dev sampleInit = Except.error ChildError.ChildClosed :=
  (c10_get_dev_states sampleInit).1 (by decide)

end Mayastor
